import Mathlib

/-!
Verification of the computational core of `candle_cost_ui.py`
(Desert Candle Works cost calculator and inventory tool).

Python dicts are embedded as association lists `List (String × α)`
(preserving insertion order, first occurrence of a key wins on lookup,
as in Python dicts where keys are unique), and Python floats as exact
rationals `ℚ`.  All definitions are translated directly from the source.
-/

namespace CandleCost

/-- Lookup in an association list, embedding Python `d[k]` / `k in d`. -/
def dictGet {α : Type} (d : List (String × α)) (k : String) : Option α :=
  match d with
  | [] => none
  | (k', v) :: rest => if k' = k then some v else dictGet rest k

@[simp] theorem dictGet_nil {α : Type} (k : String) : dictGet ([] : List (String × α)) k = none :=
  rfl

@[simp] theorem dictGet_cons {α : Type} (k' : String) (v : α) (rest : List (String × α))
    (k : String) : dictGet ((k', v) :: rest) k = if k' = k then some v else dictGet rest k :=
  rfl

/-- Assignment `d[k] = v` on an association list: updates the entry in place if
the key is present (Python dicts keep insertion order), appends it otherwise. -/
def dictSet {α : Type} (d : List (String × α)) (k : String) (v : α) :
    List (String × α) :=
  match d with
  | [] => [(k, v)]
  | (k', v') :: rest => if k' = k then (k', v) :: rest else (k', v') :: dictSet rest k v

theorem dictGet_dictSet_same {α : Type} (d : List (String × α)) (k : String) (v : α) :
    dictGet (dictSet d k v) k = some v := by
  induction d with
  | nil => simp [dictSet]
  | cons e rest ih =>
    obtain ⟨k', v'⟩ := e
    by_cases h : k' = k
    · simp [dictSet, h]
    · simp [dictSet, h, ih]

theorem dictGet_dictSet_other {α : Type} (d : List (String × α)) (k k' : String) (v : α)
    (hne : k ≠ k') : dictGet (dictSet d k v) k' = dictGet d k' := by
  induction d with
  | nil => simp [dictSet, hne]
  | cons e rest ih =>
    obtain ⟨k₁, v₁⟩ := e
    by_cases h : k₁ = k
    · subst h
      simp [dictSet, hne]
    · simp [dictSet, h, ih]

/-- Embedding of Python `str.strip()`: drop leading and trailing whitespace. -/
def pyStrip (s : String) : String :=
  ⟨((s.data.dropWhile Char.isWhitespace).reverse.dropWhile Char.isWhitespace).reverse⟩

/-- Embedding of Python `str.lower()`. -/
def pyLower (s : String) : String :=
  ⟨s.data.map Char.toLower⟩

/-- Embedding of Python `str.replace(" ", "_")` (the only replacement the code
performs): each space character becomes an underscore. -/
def pyReplaceSpace (s : String) : String :=
  ⟨s.data.map (fun c => if c = ' ' then '_' else c)⟩

/-- Result record of `compute_results` (the dict returned at lines 507-515). -/
structure RecipeResult where
  wax_oz : ℚ
  fragrance_oz : ℚ
  wax_cost : ℚ
  fragrance_cost : ℚ
  wick_cost : ℚ
  total_material_cost : ℚ
  cost_per_wax_oz : ℚ
  deriving Repr, DecidableEq

/-- Embedding of `compute_results` (lines 490-515 of `candle_cost_ui.py`). -/
def compute_results (water_oz wax_cost_per_oz water_to_wax_ratio fragrance_load
    fo_cost_per_oz wick_cost : ℚ) : RecipeResult :=
  let wax_oz := water_oz * water_to_wax_ratio
  let fragrance_oz := wax_oz * fragrance_load
  let wax_cost := wax_oz * wax_cost_per_oz
  let fragrance_cost := fragrance_oz * fo_cost_per_oz
  let total_material_cost := wax_cost + fragrance_cost + wick_cost
  let cost_per_wax_oz := if wax_oz > 0 then total_material_cost / wax_oz else 0
  { wax_oz := wax_oz
    fragrance_oz := fragrance_oz
    wax_cost := wax_cost
    fragrance_cost := fragrance_cost
    wick_cost := wick_cost
    total_material_cost := total_material_cost
    cost_per_wax_oz := cost_per_wax_oz }

/-- C1: `compute_results` computes exactly the linear formulas of the spec,
and on the standard recipe (water 8 oz, wax $0.2189/oz, ratio 0.90, load 8%,
fragrance $2.50/oz, wick $1.47) yields wax_oz = 7.2, fragrance_oz = 0.576 and
total material cost 4.48608 ≈ 4.486. -/
theorem compute_results_spec :
    (∀ water_oz wax_cost_per_oz ratio load fo_cost wick_cost : ℚ,
      (compute_results water_oz wax_cost_per_oz ratio load fo_cost wick_cost).wax_oz
          = water_oz * ratio ∧
      (compute_results water_oz wax_cost_per_oz ratio load fo_cost wick_cost).fragrance_oz
          = (water_oz * ratio) * load ∧
      (compute_results water_oz wax_cost_per_oz ratio load fo_cost wick_cost).wax_cost
          = (water_oz * ratio) * wax_cost_per_oz ∧
      (compute_results water_oz wax_cost_per_oz ratio load fo_cost wick_cost).fragrance_cost
          = ((water_oz * ratio) * load) * fo_cost ∧
      (compute_results water_oz wax_cost_per_oz ratio load fo_cost wick_cost).total_material_cost
          = (water_oz * ratio) * wax_cost_per_oz + ((water_oz * ratio) * load) * fo_cost
            + wick_cost) ∧
    ((compute_results 8 (2189/10000) (9/10) (8/100) (5/2) (147/100)).wax_oz = 72/10 ∧
     (compute_results 8 (2189/10000) (9/10) (8/100) (5/2) (147/100)).fragrance_oz = 576/1000 ∧
     (compute_results 8 (2189/10000) (9/10) (8/100) (5/2) (147/100)).total_material_cost
        = 448608/100000 ∧
     |(compute_results 8 (2189/10000) (9/10) (8/100) (5/2) (147/100)).total_material_cost
        - 4486/1000| ≤ 1/1000) := by
  constructor
  · intro water_oz wax_cost_per_oz ratio load fo_cost wick_cost
    exact ⟨rfl, rfl, rfl, rfl, rfl⟩
  · refine ⟨by norm_num [compute_results], by norm_num [compute_results],
      by norm_num [compute_results], ?_⟩
    norm_num [compute_results, abs_le]

/-- C4 counterexample: the claim quantifies over every `water_oz ≤ 0`, but at
`water_oz = -1` (ratio 0.9) the code returns `wax_oz = -0.9 ≠ 0`. -/
theorem compute_results_water_nonpos_counterexample :
    (-1 : ℚ) ≤ 0 ∧
    (compute_results (-1) (2189/10000) (9/10) (8/100) (5/2) (147/100)).wax_oz ≠ 0 := by
  constructor
  · norm_num
  · norm_num [compute_results]

/-- C4 (amended): `compute_results` is total (never raises); at `water_oz = 0` it
returns `wax_oz = 0`, `fragrance_oz = 0` and `cost_per_wax_oz = 0`; and for any
`water_oz ≤ 0` with nonnegative ratio, `wax_oz ≤ 0` and the division
`total_material_cost / wax_oz` is guarded, yielding `cost_per_wax_oz = 0`. -/
theorem compute_results_water_nonpos :
    (∀ wax_cost_per_oz ratio load fo_cost wick_cost : ℚ,
      (compute_results 0 wax_cost_per_oz ratio load fo_cost wick_cost).wax_oz = 0 ∧
      (compute_results 0 wax_cost_per_oz ratio load fo_cost wick_cost).fragrance_oz = 0 ∧
      (compute_results 0 wax_cost_per_oz ratio load fo_cost wick_cost).cost_per_wax_oz = 0) ∧
    (∀ water_oz wax_cost_per_oz ratio load fo_cost wick_cost : ℚ,
      water_oz ≤ 0 → 0 ≤ ratio →
      (compute_results water_oz wax_cost_per_oz ratio load fo_cost wick_cost).wax_oz ≤ 0 ∧
      (compute_results water_oz wax_cost_per_oz ratio load fo_cost wick_cost).cost_per_wax_oz
        = 0) := by
  constructor
  · intro wax_cost_per_oz ratio load fo_cost wick_cost
    exact ⟨by simp [compute_results], by simp [compute_results], by simp [compute_results]⟩
  · intro water_oz wax_cost_per_oz ratio load fo_cost wick_cost hw hr
    have hwax : water_oz * ratio ≤ 0 := mul_nonpos_of_nonpos_of_nonneg hw hr
    constructor
    · simpa [compute_results] using hwax
    · simp only [compute_results]
      exact if_neg (not_lt.mpr hwax)

/-- Witness for the amended C4 theorem at a concrete input. -/
theorem compute_results_water_nonpos_witness :
    (compute_results (-2) 1 (9/10) (8/100) (5/2) (147/100)).wax_oz ≤ 0 ∧
    (compute_results (-2) 1 (9/10) (8/100) (5/2) (147/100)).cost_per_wax_oz = 0 :=
  compute_results_water_nonpos.2 (-2) 1 (9/10) (8/100) (5/2) (147/100)
    (by norm_num) (by norm_num)

/-! ## Blend engine -/

/-- Warnings emitted by `compute_blend_cost_from_definition`; the Python code
appends formatted strings, which we embed as a structured warning type. -/
inductive BlendWarning
  | totalMismatch (total_pct : ℚ)
  | unknownScent (key : String)
  deriving Repr, DecidableEq

/-- A blend definition `{"scents": {scent_key: pct, ...}}`. -/
structure BlendDef where
  scents : List (String × ℚ)
  deriving Repr, DecidableEq

/-- Loop body of the weighted-cost accumulation in
`compute_blend_cost_from_definition` (lines 322-327): an unknown key appends a
warning and is skipped, a known key adds `pct / 100 * cost` to the total. -/
def blend_step (scents_dict : List (String × ℚ)) (acc : ℚ × List BlendWarning)
    (e : String × ℚ) : ℚ × List BlendWarning :=
  match dictGet scents_dict e.1 with
  | none => (acc.1, acc.2 ++ [BlendWarning.unknownScent e.1])
  | some c => (acc.1 + e.2 / 100 * c, acc.2)

/-- Embedding of `compute_blend_cost_from_definition` (lines 309-329):
returns `(weighted_cost_per_oz, total_pct, warnings)`. -/
def compute_blend_cost_from_definition (scents_dict : List (String × ℚ))
    (blend_def : BlendDef) : ℚ × ℚ × List BlendWarning :=
  let blend_scents := blend_def.scents
  let total_pct := (blend_scents.map Prod.snd).sum
  let warnings := if |total_pct - 100| > 0.01
    then [BlendWarning.totalMismatch total_pct] else []
  let r := blend_scents.foldl (blend_step scents_dict) (0, warnings)
  (r.1, total_pct, r.2)

/-- The weighted cost actually accumulated: entries whose key is missing from
the catalog contribute nothing. -/
def foundCost (scents_dict blend : List (String × ℚ)) : ℚ :=
  (blend.map (fun e =>
    match dictGet scents_dict e.1 with
    | some c => e.2 / 100 * c
    | none => 0)).sum

/-- The unknown-scent warnings produced by the accumulation loop, in order. -/
def missingWarnings (scents_dict blend : List (String × ℚ)) : List BlendWarning :=
  (blend.filter (fun e => (dictGet scents_dict e.1).isNone)).map
    (fun e => BlendWarning.unknownScent e.1)

theorem blend_foldl_spec (scents_dict : List (String × ℚ)) :
    ∀ (blend : List (String × ℚ)) (acc : ℚ × List BlendWarning),
      blend.foldl (blend_step scents_dict) acc
        = (acc.1 + foundCost scents_dict blend,
           acc.2 ++ missingWarnings scents_dict blend) := by
  intro blend
  induction blend with
  | nil => intro acc; simp [foundCost, missingWarnings]
  | cons e rest ih =>
    intro acc
    cases h : dictGet scents_dict e.1 with
    | none =>
      simp [List.foldl_cons, blend_step, h, ih, foundCost, missingWarnings,
        List.append_assoc]
    | some c =>
      simp [List.foldl_cons, blend_step, h, ih, foundCost, missingWarnings, add_assoc]

/-- Closed-form characterisation of `compute_blend_cost_from_definition`. -/
theorem compute_blend_cost_eq (scents_dict : List (String × ℚ)) (bd : BlendDef) :
    compute_blend_cost_from_definition scents_dict bd
      = (foundCost scents_dict bd.scents,
         (bd.scents.map Prod.snd).sum,
         (if |(bd.scents.map Prod.snd).sum - 100| > 0.01
            then [BlendWarning.totalMismatch ((bd.scents.map Prod.snd).sum)] else [])
           ++ missingWarnings scents_dict bd.scents) := by
  simp only [compute_blend_cost_from_definition]
  rw [blend_foldl_spec]
  simp

theorem foundCost_eq_filter (scents_dict blend : List (String × ℚ)) :
    foundCost scents_dict blend
      = ((blend.filter (fun e => (dictGet scents_dict e.1).isSome)).map
          (fun e => e.2 / 100 * (dictGet scents_dict e.1).getD 0)).sum := by
  induction blend with
  | nil => rfl
  | cons e rest ih =>
    simp only [foundCost] at ih ⊢
    simp only [List.map_cons, List.sum_cons, List.filter_cons]
    cases h : dictGet scents_dict e.1 with
    | none => simp [h, ih]
    | some c => simp [h, ih]

/-- C2: on a blend whose percentages total 100 within 0.01 and whose scent keys
are all present in the catalog, `compute_blend_cost_from_definition` returns no
warnings and the exact weighted sum Σ pct/100 · catalog[key]. -/
theorem compute_blend_cost_valid (scents_dict : List (String × ℚ)) (bd : BlendDef)
    (htot : |(bd.scents.map Prod.snd).sum - 100| ≤ 0.01)
    (hkeys : ∀ e ∈ bd.scents, (dictGet scents_dict e.1).isSome) :
    (compute_blend_cost_from_definition scents_dict bd).2.2 = [] ∧
    (compute_blend_cost_from_definition scents_dict bd).1
      = (bd.scents.map (fun e => e.2 / 100 * (dictGet scents_dict e.1).getD 0)).sum := by
  have hfilter : bd.scents.filter (fun e => (dictGet scents_dict e.1).isNone) = [] := by
    rw [List.filter_eq_nil_iff]
    intro e he
    have h2 := hkeys e he
    cases h : dictGet scents_dict e.1 with
    | none => rw [h] at h2; exact absurd h2 (by simp)
    | some c => simp [h]
  constructor
  · simp only [compute_blend_cost_eq]
    rw [if_neg (not_lt.mpr htot)]
    simp [missingWarnings, hfilter]
  · simp only [compute_blend_cost_eq]
    rw [foundCost_eq_filter]
    have : bd.scents.filter (fun e => (dictGet scents_dict e.1).isSome) = bd.scents := by
      rw [List.filter_eq_self]
      intro e he
      exact hkeys e he
    rw [this]

/-- Closed witness for `compute_blend_cost_valid` on a concrete 60/40 blend. -/
theorem compute_blend_cost_valid_witness :
    (compute_blend_cost_from_definition
        [("lavender", 2471/1500), ("leather", 2763/1600)]
        ⟨[("lavender", 60), ("leather", 40)]⟩).2.2 = [] ∧
    (compute_blend_cost_from_definition
        [("lavender", 2471/1500), ("leather", 2763/1600)]
        ⟨[("lavender", 60), ("leather", 40)]⟩).1
      = 60 / 100 * (2471/1500) + 40 / 100 * (2763/1600) := by
  have h := compute_blend_cost_valid
    [("lavender", 2471/1500), ("leather", 2763/1600)]
    ⟨[("lavender", 60), ("leather", 40)]⟩
    (by norm_num [List.map_cons, List.sum_cons, List.map_nil, List.sum_nil])
    (by intro e he; fin_cases he <;> simp [dictGet])
  refine ⟨h.1, ?_⟩
  rw [h.2]
  simp only [dictGet, List.map_cons, List.map_nil, List.sum_cons, List.sum_nil]
  rw [if_neg (by decide : ¬ ("lavender" : String) = "leather")]
  norm_num

/-- C3: a blend containing a scent key absent from the catalog produces at least
one warning; the cost is the weighted sum over the present keys only (the
missing key is skipped), and the returned total percentage is still the raw sum
of all declared percentages, the unknown key included. -/
theorem compute_blend_cost_unknown (scents_dict : List (String × ℚ)) (bd : BlendDef)
    (hmiss : ∃ e ∈ bd.scents, dictGet scents_dict e.1 = none) :
    (compute_blend_cost_from_definition scents_dict bd).2.2 ≠ [] ∧
    (compute_blend_cost_from_definition scents_dict bd).1
      = ((bd.scents.filter (fun e => (dictGet scents_dict e.1).isSome)).map
          (fun e => e.2 / 100 * (dictGet scents_dict e.1).getD 0)).sum ∧
    (compute_blend_cost_from_definition scents_dict bd).2.1
      = (bd.scents.map Prod.snd).sum := by
  obtain ⟨e, he, hnone⟩ := hmiss
  refine ⟨?_, ?_, ?_⟩
  · simp only [compute_blend_cost_eq]
    intro hcontra
    have hmw : missingWarnings scents_dict bd.scents = [] :=
      (List.append_eq_nil.mp hcontra).2
    have hef : e ∈ bd.scents.filter (fun x => (dictGet scents_dict x.1).isNone) :=
      List.mem_filter.mpr ⟨he, by simp [hnone]⟩
    have : bd.scents.filter (fun x => (dictGet scents_dict x.1).isNone) = [] := by
      have := List.map_eq_nil_iff.mp hmw
      exact this
    rw [this] at hef
    exact absurd hef (List.not_mem_nil e)
  · simp only [compute_blend_cost_eq]
    exact foundCost_eq_filter scents_dict bd.scents
  · simp only [compute_blend_cost_eq]

/-- Closed witness for `compute_blend_cost_unknown`: `vanilla` is not in the
catalog, so a warning is produced, the cost counts only `lavender`, and the
total is still 100. -/
theorem compute_blend_cost_unknown_witness :
    (compute_blend_cost_from_definition [("lavender", 2471/1500)]
        ⟨[("lavender", 60), ("vanilla", 40)]⟩).2.2 ≠ [] ∧
    (compute_blend_cost_from_definition [("lavender", 2471/1500)]
        ⟨[("lavender", 60), ("vanilla", 40)]⟩).1
      = (([(("lavender" : String), (60 : ℚ)), ("vanilla", 40)].filter
          (fun e => (dictGet [("lavender", 2471/1500)] e.1).isSome)).map
          (fun e => e.2 / 100 * (dictGet [("lavender", 2471/1500)] e.1).getD 0)).sum ∧
    (compute_blend_cost_from_definition [("lavender", 2471/1500)]
        ⟨[("lavender", 60), ("vanilla", 40)]⟩).2.1
      = ([(("lavender" : String), (60 : ℚ)), ("vanilla", 40)].map Prod.snd).sum :=
  compute_blend_cost_unknown [("lavender", 2471/1500)]
    ⟨[("lavender", 60), ("vanilla", 40)]⟩
    ⟨("vanilla", 40), by simp, by simp [dictGet]⟩

/-- C10: a blend whose percentage total is off by more than 0.01 yields a
non-empty warnings list, whatever the catalog contains. -/
theorem compute_blend_cost_total_mismatch (scents_dict : List (String × ℚ))
    (bd : BlendDef)
    (htot : |(bd.scents.map Prod.snd).sum - 100| > 0.01) :
    (compute_blend_cost_from_definition scents_dict bd).2.2 ≠ [] := by
  simp only [compute_blend_cost_eq]
  rw [if_pos htot]
  simp

/-- Closed witness for `compute_blend_cost_total_mismatch`: a 60/30 blend whose
keys are all in the catalog still warns, because the total is 90. -/
theorem compute_blend_cost_total_mismatch_witness :
    (compute_blend_cost_from_definition
        [("lavender", 2471/1500), ("leather", 2763/1600)]
        ⟨[("lavender", 60), ("leather", 30)]⟩).2.2 ≠ [] :=
  compute_blend_cost_total_mismatch
    [("lavender", 2471/1500), ("leather", 2763/1600)]
    ⟨[("lavender", 60), ("leather", 30)]⟩
    (by norm_num [List.map_cons, List.sum_cons, List.map_nil, List.sum_nil])

/-! ## Saving blends -/

/-- Embedding of the "Save blend" button handler inside `blend_selector`
(lines 442-453): three validation branches only warn and leave the blends
store untouched (flag `false`); otherwise the definition is stored as
`{"scents": blend_scents}` under the stripped name (flag `true`). -/
def save_blend (blends : List (String × BlendDef)) (blend_name : String)
    (blend_scents : List (String × ℚ)) : List (String × BlendDef) × Bool :=
  if pyStrip blend_name = "" then (blends, false)
  else if blend_scents = [] then (blends, false)
  else if |(blend_scents.map Prod.snd).sum - 100| > 0.01 then (blends, false)
  else (dictSet blends (pyStrip blend_name) ⟨blend_scents⟩, true)

/-- C5: `save_blend` fails and leaves the blend store unchanged when the name
is blank after stripping, the blend is empty, or the total percentage differs
from 100 by more than 0.01; otherwise it stores the definition under the
stripped name, overwriting any existing blend with that name. -/
theorem save_blend_spec (blends : List (String × BlendDef)) (blend_name : String)
    (blend_scents : List (String × ℚ)) :
    ((pyStrip blend_name = "" ∨ blend_scents = [] ∨
        |(blend_scents.map Prod.snd).sum - 100| > 0.01) →
      save_blend blends blend_name blend_scents = (blends, false)) ∧
    (pyStrip blend_name ≠ "" → blend_scents ≠ [] →
      |(blend_scents.map Prod.snd).sum - 100| ≤ 0.01 →
      save_blend blends blend_name blend_scents
        = (dictSet blends (pyStrip blend_name) ⟨blend_scents⟩, true) ∧
      dictGet (save_blend blends blend_name blend_scents).1 (pyStrip blend_name)
        = some ⟨blend_scents⟩) := by
  constructor
  · intro h
    by_cases h1 : pyStrip blend_name = ""
    · simp [save_blend, h1]
    · by_cases h2 : blend_scents = []
      · simp [save_blend, h1, h2]
      · have h3 : |(blend_scents.map Prod.snd).sum - 100| > 0.01 := by tauto
        simp [save_blend, h1, h2, h3]
  · intro h1 h2 h3
    have h4 : ¬ |(blend_scents.map Prod.snd).sum - 100| > 0.01 := not_lt.mpr h3
    have heq : save_blend blends blend_name blend_scents
        = (dictSet blends (pyStrip blend_name) ⟨blend_scents⟩, true) := by
      simp [save_blend, h1, h2, h4]
    refine ⟨heq, ?_⟩
    rw [heq]
    exact dictGet_dictSet_same blends (pyStrip blend_name) ⟨blend_scents⟩

/-- Closed witness for `save_blend_spec`: a 60/30 blend (total 90) is rejected
and the store stays empty; the 60/40 fix is stored under the given name. -/
theorem save_blend_spec_witness :
    save_blend [] "My Blend" [("a", 60), ("b", 30)] = ([], false) ∧
    save_blend [] "My Blend" [("a", 60), ("b", 40)]
      = ([("My Blend", ⟨[("a", 60), ("b", 40)]⟩)], true) := by
  constructor
  · exact (save_blend_spec [] "My Blend" [("a", 60), ("b", 30)]).1
      (Or.inr (Or.inr (by
        norm_num [List.map_cons, List.sum_cons, List.map_nil, List.sum_nil])))
  · have h := (save_blend_spec [] "My Blend" [("a", 60), ("b", 40)]).2
      (by decide) (by decide)
      (by norm_num [List.map_cons, List.sum_cons, List.map_nil, List.sum_nil])
    rw [h.1, show pyStrip "My Blend" = "My Blend" from by decide]
    rfl

/-! ## Adding custom scents -/

/-- Key derivation at line 234: `name.strip().lower().replace(" ", "_")`. -/
def scent_key (name : String) : String :=
  pyReplaceSpace (pyLower (pyStrip name))

/-- Embedding of the "Add scent to list" handler of `add_custom_scent`
(lines 228-239): state is the pair (merged scents dict, custom scents dict);
validation failures only warn and change nothing (flag `false`); success
stores `total_cost / bottle_oz` under the derived key in both dicts. -/
def add_custom_scent (scents custom_scents : List (String × ℚ)) (name : String)
    (bottle_oz total_cost : ℚ) :
    List (String × ℚ) × List (String × ℚ) × Bool :=
  if pyStrip name = "" then (scents, custom_scents, false)
  else if bottle_oz ≤ 0 ∨ total_cost ≤ 0 then (scents, custom_scents, false)
  else
    (dictSet scents (scent_key name) (total_cost / bottle_oz),
     dictSet custom_scents (scent_key name) (total_cost / bottle_oz), true)

/-- C7: `add_custom_scent` fails (changing nothing) when the stripped name is
blank or bottle size or total cost is ≤ 0; on success the key is the stripped,
lowercased, space-to-underscore name, the stored cost per ounce is
`total_cost / bottle_oz` (overwriting any colliding key), and that cost is
strictly positive. -/
theorem add_custom_scent_spec (scents custom_scents : List (String × ℚ))
    (name : String) (bottle_oz total_cost : ℚ) :
    ((pyStrip name = "" ∨ bottle_oz ≤ 0 ∨ total_cost ≤ 0) →
      add_custom_scent scents custom_scents name bottle_oz total_cost
        = (scents, custom_scents, false)) ∧
    (pyStrip name ≠ "" → 0 < bottle_oz → 0 < total_cost →
      add_custom_scent scents custom_scents name bottle_oz total_cost
        = (dictSet scents (scent_key name) (total_cost / bottle_oz),
           dictSet custom_scents (scent_key name) (total_cost / bottle_oz), true) ∧
      dictGet (add_custom_scent scents custom_scents name bottle_oz total_cost).1
          (scent_key name) = some (total_cost / bottle_oz) ∧
      0 < total_cost / bottle_oz) := by
  constructor
  · intro h
    by_cases h1 : pyStrip name = ""
    · simp [add_custom_scent, h1]
    · have h2 : bottle_oz ≤ 0 ∨ total_cost ≤ 0 := by tauto
      simp [add_custom_scent, h1, h2]
  · intro h1 hb ht
    have h2 : ¬ (bottle_oz ≤ 0 ∨ total_cost ≤ 0) := by
      push_neg
      exact ⟨hb, ht⟩
    have heq : add_custom_scent scents custom_scents name bottle_oz total_cost
        = (dictSet scents (scent_key name) (total_cost / bottle_oz),
           dictSet custom_scents (scent_key name) (total_cost / bottle_oz), true) := by
      simp [add_custom_scent, h1, h2]
    refine ⟨heq, ?_, div_pos ht hb⟩
    rw [heq]
    exact dictGet_dictSet_same scents (scent_key name) (total_cost / bottle_oz)

/-- Closed witness for `add_custom_scent_spec`: adding " Pumpkin Spice "
(16 oz bottle at $38.75) creates key `pumpkin_spice` at a positive cost. -/
theorem add_custom_scent_spec_witness :
    add_custom_scent [] [] " Pumpkin Spice " 16 (155/4)
      = ([("pumpkin_spice", 155/64)], [("pumpkin_spice", 155/64)], true) ∧
    (0 : ℚ) < 155/64 := by
  have h := (add_custom_scent_spec [] [] " Pumpkin Spice " 16 (155/4)).2
    (by decide) (by norm_num) (by norm_num)
  constructor
  · rw [h.1, show scent_key " Pumpkin Spice " = "pumpkin_spice" from by decide]
    norm_num [dictSet]
  · norm_num

/-! ## Building a new blend from rows -/

/-- Embedding of `blend_scents[scent_key] = blend_scents.get(scent_key, 0.0) + pct`
(line 369): add to the existing entry in place, or append a new one. -/
def upsertAdd (d : List (String × ℚ)) (k : String) (p : ℚ) : List (String × ℚ) :=
  match d with
  | [] => [(k, p)]
  | (k', v) :: rest => if k' = k then (k', v + p) :: rest else (k', v) :: upsertAdd rest k p

/-- One iteration of the row loop at lines 367-369: rows with `pct > 0` are
accumulated, the rest are skipped. -/
def blend_row_step (d : List (String × ℚ)) (r : String × ℚ) : List (String × ℚ) :=
  if r.2 > 0 then upsertAdd d r.1 r.2 else d

/-- Embedding of the dict-building part of `build_new_blend` (lines 365-371). -/
def build_new_blend (rows : List (String × ℚ)) : List (String × ℚ) :=
  rows.foldl blend_row_step []

theorem dictGet_upsertAdd_same (d : List (String × ℚ)) (k : String) (p : ℚ) :
    dictGet (upsertAdd d k p) k = some ((dictGet d k).getD 0 + p) := by
  induction d with
  | nil => simp [upsertAdd]
  | cons e rest ih =>
    obtain ⟨k', v⟩ := e
    by_cases h : k' = k
    · simp [upsertAdd, h]
    · simp [upsertAdd, h, ih]

theorem dictGet_upsertAdd_other (d : List (String × ℚ)) (k k' : String) (p : ℚ)
    (hne : k ≠ k') : dictGet (upsertAdd d k p) k' = dictGet d k' := by
  induction d with
  | nil => simp [upsertAdd, hne]
  | cons e rest ih =>
    obtain ⟨k₁, v⟩ := e
    by_cases h : k₁ = k
    · subst h
      simp [upsertAdd, hne]
    · simp [upsertAdd, h, ih]

theorem mem_keys_upsertAdd (d : List (String × ℚ)) (k : String) (p : ℚ) (a : String) :
    a ∈ (upsertAdd d k p).map Prod.fst ↔ a ∈ d.map Prod.fst ∨ a = k := by
  induction d with
  | nil => simp [upsertAdd]
  | cons e rest ih =>
    obtain ⟨k₁, v⟩ := e
    by_cases h : k₁ = k
    · subst h
      simp [upsertAdd]
      tauto
    · simp [upsertAdd, h, ih]
      tauto

theorem keys_nodup_upsertAdd (d : List (String × ℚ)) (k : String) (p : ℚ)
    (hd : (d.map Prod.fst).Nodup) : ((upsertAdd d k p).map Prod.fst).Nodup := by
  induction d with
  | nil => simp [upsertAdd]
  | cons e rest ih =>
    obtain ⟨k₁, v⟩ := e
    simp only [List.map_cons, List.nodup_cons] at hd
    by_cases h : k₁ = k
    · subst h
      simpa [upsertAdd, List.nodup_cons] using hd
    · simp only [upsertAdd, if_neg h, List.map_cons, List.nodup_cons]
      refine ⟨?_, ih hd.2⟩
      intro hmem
      rcases (mem_keys_upsertAdd rest k p k₁).mp hmem with hmem2 | heq
      · exact hd.1 hmem2
      · exact h heq

/-- The rows that actually contribute to key `k`: matching key, positive pct. -/
def keyRows (rows : List (String × ℚ)) (k : String) : List (String × ℚ) :=
  rows.filter (fun r => r.1 = k ∧ 0 < r.2)

/-- Total percentage contributed to key `k` by the positive rows for `k`. -/
def keyTotal (rows : List (String × ℚ)) (k : String) : ℚ :=
  ((keyRows rows k).map Prod.snd).sum

theorem dictGet_build_loop (k : String) :
    ∀ (rows d : List (String × ℚ)),
      dictGet (rows.foldl blend_row_step d) k
        = match dictGet d k with
          | some v => some (v + keyTotal rows k)
          | none => if keyRows rows k = [] then none else some (keyTotal rows k) := by
  intro rows
  induction rows with
  | nil =>
    intro d
    cases h : dictGet d k <;> simp [keyRows, keyTotal, h]
  | cons r rest ih =>
    intro d
    by_cases hp : 0 < r.2
    · by_cases hk : r.1 = k
      · have hstep : blend_row_step d r = upsertAdd d k r.2 := by
          simp [blend_row_step, hp, hk]
        have hkr : keyRows (r :: rest) k = r :: keyRows rest k := by
          simp [keyRows, List.filter_cons, hk, hp]
        have hkt : keyTotal (r :: rest) k = r.2 + keyTotal rest k := by
          simp only [keyTotal]
          rw [hkr]
          simp
        rw [List.foldl_cons, hstep, ih, dictGet_upsertAdd_same]
        cases h : dictGet d k with
        | none => simp [hkt, hkr, add_comm]
        | some v => simp [hkt, add_assoc, add_comm r.2]
      · have hstep : blend_row_step d r = upsertAdd d r.1 r.2 := by
          simp [blend_row_step, hp]
        have hkr : keyRows (r :: rest) k = keyRows rest k := by
          simp [keyRows, List.filter_cons, hk]
        have hkt : keyTotal (r :: rest) k = keyTotal rest k := by
          simp [keyTotal, hkr]
        rw [List.foldl_cons, hstep, ih, dictGet_upsertAdd_other d r.1 k r.2 hk, hkr, hkt]
    · have hstep : blend_row_step d r = d := by
        simp [blend_row_step, hp]
      have hkr : keyRows (r :: rest) k = keyRows rest k := by
        simp [keyRows, List.filter_cons, hp]
      have hkt : keyTotal (r :: rest) k = keyTotal rest k := by
        simp [keyTotal, hkr]
      rw [List.foldl_cons, hstep, ih, hkr, hkt]

/-- C8: in the blend dictionary built by `build_new_blend`, rows with
nonpositive percent are dropped and rows sharing a scent key are summed into a
single entry: the keys of the result are duplicate-free, and looking up any key
yields the sum of the positive percents declared for it in the rows (`none`
when there are no such rows). -/
theorem build_new_blend_spec (rows : List (String × ℚ)) :
    ((build_new_blend rows).map Prod.fst).Nodup ∧
    ∀ k, dictGet (build_new_blend rows) k
      = if keyRows rows k = [] then none else some (keyTotal rows k) := by
  constructor
  · suffices h : ∀ (rs d : List (String × ℚ)), (d.map Prod.fst).Nodup →
        ((rs.foldl blend_row_step d).map Prod.fst).Nodup by
      exact h rows [] (by simp)
    intro rs
    induction rs with
    | nil =>
      intro d hd
      simpa using hd
    | cons r rest ih =>
      intro d hd
      rw [List.foldl_cons]
      apply ih
      by_cases hp : 0 < r.2
      · simp only [blend_row_step, if_pos hp]
        exact keys_nodup_upsertAdd d r.1 r.2 hd
      · simpa [blend_row_step, hp] using hd
  · intro k
    exact dictGet_build_loop k rows []

/-! ## Inventory ledger -/

/-- An inventory record as built in `add_to_inventory_form` (lines 593-609).
`container_cost` is optional: records saved before that field existed lack it,
and readers use `item.get("container_cost", 0)`. -/
structure InventoryItem where
  sku : String
  product_name : String
  container_id : String
  blend_name : String
  production_date : String
  batch_number : String
  quantity : ℕ
  material_cost : ℚ
  container_cost : Option ℚ
  target_price : ℚ
  wick_config : List (String × ℕ)
  wax_oz : ℚ
  fragrance_oz : ℚ
  water_oz : ℚ
  notes : String
  deriving Repr, DecidableEq

/-- Embedding of the inventory summary metrics in `main` (lines 804-809):
`(total_items, total_quantity, total_value)`. -/
def inventory_summary (inventory : List (String × InventoryItem)) : ℕ × ℕ × ℚ :=
  (inventory.length,
   (inventory.map (fun e => e.2.quantity)).sum,
   (inventory.map (fun e =>
      (e.2.quantity : ℚ) * (e.2.material_cost + e.2.container_cost.getD 0))).sum)

/-- First example inventory item: quantity 3, material cost 3, container cost 1
(unit cost 4). -/
def exampleItem1 : InventoryItem :=
  { sku := "DCW-001", product_name := "Boot Leather - 8oz", container_id := "8oz_amber",
    blend_name := "Boot Leather", production_date := "2025-12-01", batch_number := "B001",
    quantity := 3, material_cost := 3, container_cost := some 1, target_price := 25,
    wick_config := [("wood_30mm", 1)], wax_oz := 27/4, fragrance_oz := 27/50,
    water_oz := 15/2, notes := "" }

/-- Second example inventory item: quantity 5, material cost 6, and no
`container_cost` field (an old record), so its unit cost is 6. -/
def exampleItem2 : InventoryItem :=
  { sku := "DCW-002", product_name := "Lavender - 8oz", container_id := "8oz_amber",
    blend_name := "Lavender", production_date := "2025-12-02", batch_number := "B002",
    quantity := 5, material_cost := 6, container_cost := none, target_price := 20,
    wick_config := [("wood_20mm", 1)], wax_oz := 27/4, fragrance_oz := 27/50,
    water_oz := 15/2, notes := "" }

/-- C6: the inventory summary reports the number of items, the sum of the
quantities, and Σ quantity × (material cost + container cost with 0 default
for missing container cost); on two items of quantities 3 and 5 with unit
costs 4 and 6 (the second lacking the container-cost field) it reports
(2, 8, 42). -/
theorem inventory_summary_spec :
    (∀ inventory : List (String × InventoryItem),
      (inventory_summary inventory).1 = inventory.length ∧
      (inventory_summary inventory).2.1
        = (inventory.map (fun e => e.2.quantity)).sum ∧
      (inventory_summary inventory).2.2
        = (inventory.map (fun e =>
            (e.2.quantity : ℚ) * (e.2.material_cost + e.2.container_cost.getD 0))).sum) ∧
    inventory_summary [("dcw-001_20251201", exampleItem1), ("dcw-002_20251202", exampleItem2)]
      = (2, 8, 42) := by
  constructor
  · intro inventory
    exact ⟨rfl, rfl, rfl⟩
  · simp only [inventory_summary, exampleItem1, exampleItem2, List.map_cons, List.map_nil,
      List.sum_cons, List.sum_nil, List.length_cons, List.length_nil, Option.getD_some,
      Option.getD_none]
    norm_num

/-- Embedding of the quantity-update action in `main` (lines 874-884):
`st.session_state.inventory[item_id]['quantity'] = new_qty` sets only the
`quantity` field of the entry stored under `item_id`. -/
def update_quantity (inventory : List (String × InventoryItem)) (item_id : String)
    (new_qty : ℕ) : List (String × InventoryItem) :=
  inventory.map (fun e =>
    if e.1 = item_id then (e.1, { e.2 with quantity := new_qty }) else e)

theorem update_quantity_cons (k₁ : String) (v₁ : InventoryItem)
    (rest : List (String × InventoryItem)) (item_id : String) (new_qty : ℕ) :
    update_quantity ((k₁, v₁) :: rest) item_id new_qty
      = (if k₁ = item_id then (k₁, { v₁ with quantity := new_qty }) else (k₁, v₁))
          :: update_quantity rest item_id new_qty := rfl

theorem dictGet_update_quantity_same (item_id : String) (new_qty : ℕ) :
    ∀ (inventory : List (String × InventoryItem)) (it : InventoryItem),
      dictGet inventory item_id = some it →
      dictGet (update_quantity inventory item_id new_qty) item_id
        = some { it with quantity := new_qty } := by
  intro inventory
  induction inventory with
  | nil =>
    intro it h
    simp at h
  | cons e rest ih =>
    intro it h
    obtain ⟨k₁, v₁⟩ := e
    rw [dictGet_cons] at h
    rw [update_quantity_cons]
    by_cases hk : k₁ = item_id
    · rw [if_pos hk] at h
      injection h with h2
      subst h2
      rw [if_pos hk, dictGet_cons, if_pos hk]
    · rw [if_neg hk] at h
      rw [if_neg hk, dictGet_cons, if_neg hk]
      exact ih it h

theorem dictGet_update_quantity_other (item_id : String) (new_qty : ℕ) (k : String)
    (hne : k ≠ item_id) :
    ∀ inventory : List (String × InventoryItem),
      dictGet (update_quantity inventory item_id new_qty) k = dictGet inventory k := by
  intro inventory
  induction inventory with
  | nil => simp [update_quantity]
  | cons e rest ih =>
    obtain ⟨k₁, v₁⟩ := e
    rw [update_quantity_cons]
    by_cases hk : k₁ = item_id
    · have hk2 : ¬ k₁ = k := fun hcon => hne (hcon ▸ hk)
      rw [if_pos hk, dictGet_cons, dictGet_cons, if_neg hk2, if_neg hk2]
      exact ih
    · by_cases hk3 : k₁ = k
      · rw [if_neg hk, dictGet_cons, dictGet_cons, if_pos hk3, if_pos hk3]
      · rw [if_neg hk, dictGet_cons, dictGet_cons, if_neg hk3, if_neg hk3]
        exact ih

/-- C9: updating the quantity of an item present in the inventory changes only
that item's `quantity` field to the new value — every other field of the item
is unchanged, and so is every other entry of the inventory. -/
theorem update_quantity_spec (inventory : List (String × InventoryItem))
    (item_id : String) (new_qty : ℕ) (it : InventoryItem)
    (hmem : dictGet inventory item_id = some it) :
    dictGet (update_quantity inventory item_id new_qty) item_id
        = some { it with quantity := new_qty } ∧
    ({ it with quantity := new_qty }.quantity = new_qty ∧
     { it with quantity := new_qty }.sku = it.sku ∧
     { it with quantity := new_qty }.product_name = it.product_name ∧
     { it with quantity := new_qty }.container_id = it.container_id ∧
     { it with quantity := new_qty }.blend_name = it.blend_name ∧
     { it with quantity := new_qty }.production_date = it.production_date ∧
     { it with quantity := new_qty }.batch_number = it.batch_number ∧
     { it with quantity := new_qty }.material_cost = it.material_cost ∧
     { it with quantity := new_qty }.container_cost = it.container_cost ∧
     { it with quantity := new_qty }.target_price = it.target_price ∧
     { it with quantity := new_qty }.wick_config = it.wick_config ∧
     { it with quantity := new_qty }.wax_oz = it.wax_oz ∧
     { it with quantity := new_qty }.fragrance_oz = it.fragrance_oz ∧
     { it with quantity := new_qty }.water_oz = it.water_oz ∧
     { it with quantity := new_qty }.notes = it.notes) ∧
    (∀ k, k ≠ item_id →
      dictGet (update_quantity inventory item_id new_qty) k = dictGet inventory k) := by
  refine ⟨dictGet_update_quantity_same item_id new_qty inventory it hmem,
    ⟨rfl, rfl, rfl, rfl, rfl, rfl, rfl, rfl, rfl, rfl, rfl, rfl, rfl, rfl, rfl⟩,
    fun k hk => dictGet_update_quantity_other item_id new_qty k hk inventory⟩

/-- Closed witness for `update_quantity_spec` on a one-item inventory. -/
theorem update_quantity_spec_witness :
    dictGet (update_quantity [("dcw-001_20251201", exampleItem1)] "dcw-001_20251201" 7)
        "dcw-001_20251201" = some { exampleItem1 with quantity := 7 } ∧
    dictGet (update_quantity [("dcw-001_20251201", exampleItem1)] "dcw-001_20251201" 7)
        "dcw-002_20251202"
      = dictGet [("dcw-001_20251201", exampleItem1)] "dcw-002_20251202" := by
  have h := update_quantity_spec [("dcw-001_20251201", exampleItem1)] "dcw-001_20251201" 7
    exampleItem1 (by simp [dictGet])
  exact ⟨h.1, h.2.2 "dcw-002_20251202" (by decide)⟩

end CandleCost
